import Mathlib

/-!
Verification of the rotation-representation module (`src/cgmath/rotation.rs`).

The module defines matrix-backed rotation wrappers `Rot2`/`Rot3` and a
quaternion adapter implementing the `Rotation2`/`Rotation3` traits.  The
scalar type `S : Float` is modelled by `ℚ` so that every operation is
executable and exact.  The matrix, quaternion, point, vector and ray
primitives live in other files of the repository (matrix.rs, quaternion.rs,
point.rs, vector.rs, ray.rs) that are not among the sources at hand; they
are modelled from the specification's boundary description and carry a
`Modelled from the spec:` doc comment.  Fatal failures (`fail!`) are
modelled with `Except String`; the fallible `unwrap` of matrix inversion is
modelled with `Option`, `none` standing for the fatal unwrap failure.
-/

/-- Modelled from the spec: the scalar type's standard comparison tolerance
used by the approximate-equality capability (missing scalar primitive). -/
def scalarApproxEpsilon : ℚ := 1 / 1000000

/-- Modelled from the spec: 2D vector primitive (missing vector.rs). -/
@[ext]
structure Vec2 where
  x : ℚ
  y : ℚ

/-- Modelled from the spec: 3D vector primitive (missing vector.rs). -/
@[ext]
structure Vec3 where
  x : ℚ
  y : ℚ
  z : ℚ

/-- Modelled from the spec: 2D point primitive (missing point.rs). -/
@[ext]
structure Point2 where
  x : ℚ
  y : ℚ

/-- Modelled from the spec: 3D point primitive (missing point.rs). -/
@[ext]
structure Point3 where
  x : ℚ
  y : ℚ
  z : ℚ

/-- Modelled from the spec: 2D ray primitive, an origin and a direction
(missing ray.rs). -/
@[ext]
structure Ray2 where
  origin : Point2
  direction : Vec2

/-- Modelled from the spec: 3D ray primitive (missing ray.rs). -/
@[ext]
structure Ray3 where
  origin : Point3
  direction : Vec3

/-- Modelled from the spec: the 2×2 matrix primitive (missing matrix.rs).
Entry `mIJ` is the entry in row `I`, column `J`. -/
@[ext]
structure Mat2 where
  m00 : ℚ
  m01 : ℚ
  m10 : ℚ
  m11 : ℚ

/-- Modelled from the spec: the identity 2×2 matrix. -/
def Mat2.identity : Mat2 := ⟨1, 0, 0, 1⟩

/-- Modelled from the spec: matrix transposition supplied by the matrix
primitive. -/
def Mat2.transpose (m : Mat2) : Mat2 :=
  ⟨m.m00, m.m10, m.m01, m.m11⟩

/-- Modelled from the spec: matrix multiplication supplied by the matrix
primitive; `a.mul_m b` is the product with `a` on the left. -/
def Mat2.mul_m (a b : Mat2) : Mat2 :=
  ⟨a.m00 * b.m00 + a.m01 * b.m10, a.m00 * b.m01 + a.m01 * b.m11,
   a.m10 * b.m00 + a.m11 * b.m10, a.m10 * b.m01 + a.m11 * b.m11⟩

/-- Modelled from the spec: in-place matrix multiplication
(`self = self * other`) supplied by the matrix primitive; the mutated value
is returned. -/
def Mat2.mul_self_m (a b : Mat2) : Mat2 :=
  ⟨a.m00 * b.m00 + a.m01 * b.m10, a.m00 * b.m01 + a.m01 * b.m11,
   a.m10 * b.m00 + a.m11 * b.m10, a.m10 * b.m01 + a.m11 * b.m11⟩

/-- Modelled from the spec: the determinant of a 2×2 matrix. -/
def Mat2.determinant (m : Mat2) : ℚ :=
  m.m00 * m.m11 - m.m01 * m.m10

/-- Modelled from the spec: general matrix inversion supplied by the matrix
primitive; undefined (`none`) for a singular matrix, otherwise the adjugate
divided by the determinant. -/
def Mat2.invert (m : Mat2) : Option Mat2 :=
  if m.determinant = 0 then none
  else some ⟨m.m11 / m.determinant, -m.m01 / m.determinant,
             -m.m10 / m.determinant, m.m00 / m.determinant⟩

/-- Modelled from the spec: in-place matrix inversion
(`self = self.invert().unwrap()`); the fatal failure on a singular matrix
is modelled by `none`. -/
def Mat2.invert_self (m : Mat2) : Option Mat2 :=
  if m.determinant = 0 then none
  else some ⟨m.m11 / m.determinant, -m.m01 / m.determinant,
             -m.m10 / m.determinant, m.m00 / m.determinant⟩

/-- Modelled from the spec: approximate equality of matrices with an
explicit tolerance, componentwise on the entries. -/
def Mat2.approx_eq_eps (a b : Mat2) (approx_epsilon : ℚ) : Bool :=
  decide (|a.m00 - b.m00| < approx_epsilon ∧ |a.m01 - b.m01| < approx_epsilon ∧
          |a.m10 - b.m10| < approx_epsilon ∧ |a.m11 - b.m11| < approx_epsilon)

/-- Modelled from the spec: approximate equality at the scalar's standard
tolerance. -/
def Mat2.approx_eq (a b : Mat2) : Bool :=
  a.approx_eq_eps b scalarApproxEpsilon

/-- An orthogonal 2×2 matrix: its transpose times itself is the identity. -/
def Mat2.orthogonal (m : Mat2) : Prop :=
  m.transpose.mul_m m = Mat2.identity

/-- Modelled from the spec: the 3×3 matrix primitive (missing matrix.rs).
Entry `mIJ` is the entry in row `I`, column `J`. -/
@[ext]
structure Mat3 where
  m00 : ℚ
  m01 : ℚ
  m02 : ℚ
  m10 : ℚ
  m11 : ℚ
  m12 : ℚ
  m20 : ℚ
  m21 : ℚ
  m22 : ℚ

/-- Modelled from the spec: the identity 3×3 matrix. -/
def Mat3.identity : Mat3 := ⟨1, 0, 0, 0, 1, 0, 0, 0, 1⟩

/-- Modelled from the spec: matrix transposition supplied by the matrix
primitive. -/
def Mat3.transpose (m : Mat3) : Mat3 :=
  ⟨m.m00, m.m10, m.m20,
   m.m01, m.m11, m.m21,
   m.m02, m.m12, m.m22⟩

/-- Modelled from the spec: matrix multiplication supplied by the matrix
primitive; `a.mul_m b` is the product with `a` on the left. -/
def Mat3.mul_m (a b : Mat3) : Mat3 :=
  ⟨a.m00 * b.m00 + a.m01 * b.m10 + a.m02 * b.m20,
   a.m00 * b.m01 + a.m01 * b.m11 + a.m02 * b.m21,
   a.m00 * b.m02 + a.m01 * b.m12 + a.m02 * b.m22,
   a.m10 * b.m00 + a.m11 * b.m10 + a.m12 * b.m20,
   a.m10 * b.m01 + a.m11 * b.m11 + a.m12 * b.m21,
   a.m10 * b.m02 + a.m11 * b.m12 + a.m12 * b.m22,
   a.m20 * b.m00 + a.m21 * b.m10 + a.m22 * b.m20,
   a.m20 * b.m01 + a.m21 * b.m11 + a.m22 * b.m21,
   a.m20 * b.m02 + a.m21 * b.m12 + a.m22 * b.m22⟩

/-- Modelled from the spec: in-place matrix multiplication
(`self = self * other`) supplied by the matrix primitive; the mutated value
is returned. -/
def Mat3.mul_self_m (a b : Mat3) : Mat3 :=
  ⟨a.m00 * b.m00 + a.m01 * b.m10 + a.m02 * b.m20,
   a.m00 * b.m01 + a.m01 * b.m11 + a.m02 * b.m21,
   a.m00 * b.m02 + a.m01 * b.m12 + a.m02 * b.m22,
   a.m10 * b.m00 + a.m11 * b.m10 + a.m12 * b.m20,
   a.m10 * b.m01 + a.m11 * b.m11 + a.m12 * b.m21,
   a.m10 * b.m02 + a.m11 * b.m12 + a.m12 * b.m22,
   a.m20 * b.m00 + a.m21 * b.m10 + a.m22 * b.m20,
   a.m20 * b.m01 + a.m21 * b.m11 + a.m22 * b.m21,
   a.m20 * b.m02 + a.m21 * b.m12 + a.m22 * b.m22⟩

/-- Modelled from the spec: the determinant of a 3×3 matrix. -/
def Mat3.determinant (m : Mat3) : ℚ :=
  m.m00 * (m.m11 * m.m22 - m.m12 * m.m21) -
  m.m01 * (m.m10 * m.m22 - m.m12 * m.m20) +
  m.m02 * (m.m10 * m.m21 - m.m11 * m.m20)

/-- Modelled from the spec: general matrix inversion supplied by the matrix
primitive; undefined (`none`) for a singular matrix, otherwise the adjugate
divided by the determinant. -/
def Mat3.invert (m : Mat3) : Option Mat3 :=
  if m.determinant = 0 then none
  else some
    ⟨(m.m11 * m.m22 - m.m12 * m.m21) / m.determinant,
     (m.m02 * m.m21 - m.m01 * m.m22) / m.determinant,
     (m.m01 * m.m12 - m.m02 * m.m11) / m.determinant,
     (m.m12 * m.m20 - m.m10 * m.m22) / m.determinant,
     (m.m00 * m.m22 - m.m02 * m.m20) / m.determinant,
     (m.m02 * m.m10 - m.m00 * m.m12) / m.determinant,
     (m.m10 * m.m21 - m.m11 * m.m20) / m.determinant,
     (m.m01 * m.m20 - m.m00 * m.m21) / m.determinant,
     (m.m00 * m.m11 - m.m01 * m.m10) / m.determinant⟩

/-- Modelled from the spec: in-place matrix inversion
(`self = self.invert().unwrap()`); the fatal failure on a singular matrix
is modelled by `none`. -/
def Mat3.invert_self (m : Mat3) : Option Mat3 :=
  if m.determinant = 0 then none
  else some
    ⟨(m.m11 * m.m22 - m.m12 * m.m21) / m.determinant,
     (m.m02 * m.m21 - m.m01 * m.m22) / m.determinant,
     (m.m01 * m.m12 - m.m02 * m.m11) / m.determinant,
     (m.m12 * m.m20 - m.m10 * m.m22) / m.determinant,
     (m.m00 * m.m22 - m.m02 * m.m20) / m.determinant,
     (m.m02 * m.m10 - m.m00 * m.m12) / m.determinant,
     (m.m10 * m.m21 - m.m11 * m.m20) / m.determinant,
     (m.m01 * m.m20 - m.m00 * m.m21) / m.determinant,
     (m.m00 * m.m11 - m.m01 * m.m10) / m.determinant⟩

/-- Modelled from the spec: approximate equality of matrices with an
explicit tolerance, componentwise on the entries. -/
def Mat3.approx_eq_eps (a b : Mat3) (approx_epsilon : ℚ) : Bool :=
  decide (|a.m00 - b.m00| < approx_epsilon ∧ |a.m01 - b.m01| < approx_epsilon ∧
          |a.m02 - b.m02| < approx_epsilon ∧ |a.m10 - b.m10| < approx_epsilon ∧
          |a.m11 - b.m11| < approx_epsilon ∧ |a.m12 - b.m12| < approx_epsilon ∧
          |a.m20 - b.m20| < approx_epsilon ∧ |a.m21 - b.m21| < approx_epsilon ∧
          |a.m22 - b.m22| < approx_epsilon)

/-- Modelled from the spec: approximate equality at the scalar's standard
tolerance. -/
def Mat3.approx_eq (a b : Mat3) : Bool :=
  a.approx_eq_eps b scalarApproxEpsilon

/-- An orthogonal 3×3 matrix: its transpose times itself is the identity. -/
def Mat3.orthogonal (m : Mat3) : Prop :=
  m.transpose.mul_m m = Mat3.identity

/-- Modelled from the spec: the quaternion primitive (missing
quaternion.rs); scalar part `s` and vector part `(x, y, z)`. -/
@[ext]
structure Quat where
  s : ℚ
  x : ℚ
  y : ℚ
  z : ℚ

/-- Modelled from the spec: Hamilton-product quaternion multiplication
supplied by the quaternion primitive; `a.mul_q b` has `a` on the left. -/
def Quat.mul_q (a b : Quat) : Quat :=
  ⟨a.s * b.s - a.x * b.x - a.y * b.y - a.z * b.z,
   a.s * b.x + a.x * b.s + a.y * b.z - a.z * b.y,
   a.s * b.y + a.y * b.s + a.z * b.x - a.x * b.z,
   a.s * b.z + a.z * b.s + a.x * b.y - a.y * b.x⟩

/-- Modelled from the spec: in-place Hamilton product
(`self = self * other`) supplied by the quaternion primitive; the mutated
value is returned. -/
def Quat.mul_self_q (a b : Quat) : Quat :=
  ⟨a.s * b.s - a.x * b.x - a.y * b.y - a.z * b.z,
   a.s * b.x + a.x * b.s + a.y * b.z - a.z * b.y,
   a.s * b.y + a.y * b.s + a.z * b.x - a.x * b.z,
   a.s * b.z + a.z * b.s + a.x * b.y - a.y * b.x⟩

/-- Modelled from the spec: quaternion conjugation (negate the vector
part), supplied by the quaternion primitive. -/
def Quat.conjugate (q : Quat) : Quat :=
  ⟨q.s, -q.x, -q.y, -q.z⟩

/-- Modelled from the spec: the squared magnitude of a quaternion. -/
def Quat.magnitude2 (q : Quat) : ℚ :=
  q.s * q.s + q.x * q.x + q.y * q.y + q.z * q.z

/-- Modelled from the spec: componentwise division of a quaternion by a
scalar, supplied by the quaternion primitive. -/
def Quat.div_s (q : Quat) (k : ℚ) : Quat :=
  ⟨q.s / k, q.x / k, q.y / k, q.z / k⟩

/-- Modelled from the spec: the standard quaternion-to-matrix conversion
formula supplied by the quaternion primitive (exact for unit
quaternions). -/
def Quat.to_mat3 (q : Quat) : Mat3 :=
  ⟨1 - 2 * (q.y * q.y) - 2 * (q.z * q.z),
   2 * (q.x * q.y) - 2 * (q.s * q.z),
   2 * (q.x * q.z) + 2 * (q.s * q.y),
   2 * (q.x * q.y) + 2 * (q.s * q.z),
   1 - 2 * (q.x * q.x) - 2 * (q.z * q.z),
   2 * (q.y * q.z) - 2 * (q.s * q.x),
   2 * (q.x * q.z) - 2 * (q.s * q.y),
   2 * (q.y * q.z) + 2 * (q.s * q.x),
   1 - 2 * (q.x * q.x) - 2 * (q.y * q.y)⟩

/-- Auxiliary for the analysis of `Quat.to_mat3`: the homogeneous variant
of the quaternion-to-matrix formula.  It agrees with `Quat.to_mat3` on unit
quaternions and is exactly multiplicative; it embeds no source code and is
used only inside proofs. -/
def Quat.homogMat (q : Quat) : Mat3 :=
  ⟨q.s * q.s + q.x * q.x - q.y * q.y - q.z * q.z,
   2 * (q.x * q.y) - 2 * (q.s * q.z),
   2 * (q.x * q.z) + 2 * (q.s * q.y),
   2 * (q.x * q.y) + 2 * (q.s * q.z),
   q.s * q.s - q.x * q.x + q.y * q.y - q.z * q.z,
   2 * (q.y * q.z) - 2 * (q.s * q.x),
   2 * (q.x * q.z) - 2 * (q.s * q.y),
   2 * (q.y * q.z) + 2 * (q.s * q.x),
   q.s * q.s - q.x * q.x - q.y * q.y + q.z * q.z⟩

/-- `Rot2`: a two-dimensional rotation wrapping a single (orthogonal)
`Mat2`, from rotation.rs. -/
@[ext]
structure Rot2 where
  mat : Mat2

/-- `Rot2::as_mat2` from rotation.rs. -/
def Rot2.as_mat2 (r : Rot2) : Mat2 := r.mat

/-- `ToRot2 for Rot2::to_rot2` from rotation.rs (a clone). -/
def Rot2.to_rot2 (r : Rot2) : Rot2 := r

/-- `ToMat2 for Rot2::to_mat2` from rotation.rs (a clone of the wrapped
matrix). -/
def Rot2.to_mat2 (r : Rot2) : Mat2 := r.mat

/-- `Rotation2 for Rot2::rotate_point2` from rotation.rs:
`fail!("Not yet implemented")`. -/
def Rot2.rotate_point2 (_r : Rot2) (_point : Point2) : Except String Point2 :=
  Except.error "Not yet implemented"

/-- `Rotation2 for Rot2::rotate_vec2` from rotation.rs: multiply the
wrapped matrix by the vector. -/
def Rot2.rotate_vec2 (r : Rot2) (vec : Vec2) : Vec2 :=
  ⟨r.mat.m00 * vec.x + r.mat.m01 * vec.y, r.mat.m10 * vec.x + r.mat.m11 * vec.y⟩

/-- `Rotation2 for Rot2::rotate_ray2` from rotation.rs:
`fail!("Not yet implemented")`. -/
def Rot2.rotate_ray2 (_r : Rot2) (_ray : Ray2) : Except String Ray2 :=
  Except.error "Not yet implemented"

/-- `Rotation2 for Rot2::concat` from rotation.rs: wrap
`self.mat.mul_m(&other.mat)`. -/
def Rot2.concat (r other : Rot2) : Rot2 :=
  ⟨r.mat.mul_m other.mat⟩

/-- `Rotation2 for Rot2::concat_self` from rotation.rs: in-place variant
via `mul_self_m`; the mutated value is returned. -/
def Rot2.concat_self (r other : Rot2) : Rot2 :=
  ⟨r.mat.mul_self_m other.mat⟩

/-- `Rotation2 for Rot2::invert` from rotation.rs: wrap
`self.mat.invert().unwrap()`; the fatal unwrap failure is modelled by
`none`. -/
def Rot2.invert (r : Rot2) : Option Rot2 :=
  (r.mat.invert).map fun m => ⟨m⟩

/-- `Rotation2 for Rot2::invert_self` from rotation.rs: in-place variant
via the matrix primitive's `invert_self`. -/
def Rot2.invert_self (r : Rot2) : Option Rot2 :=
  (r.mat.invert_self).map fun m => ⟨m⟩

/-- `ApproxEq for Rot2::approx_epsilon` from rotation.rs:
`fail!(~"Doesn't work!")`. -/
def Rot2.approx_epsilon : Except String ℚ :=
  Except.error "Doesn\x27t work!"

/-- `ApproxEq for Rot2::approx_eq` from rotation.rs: delegate to the
wrapped matrices. -/
def Rot2.approx_eq (r other : Rot2) : Bool :=
  r.mat.approx_eq other.mat

/-- `ApproxEq for Rot2::approx_eq_eps` from rotation.rs: delegate to the
wrapped matrices. -/
def Rot2.approx_eq_eps (r other : Rot2) (approx_epsilon : ℚ) : Bool :=
  r.mat.approx_eq_eps other.mat approx_epsilon

/-- Modelled from the spec: the identity 2D rotation (the spec's "identity
rotation"; rotation.rs exposes no constructor for it). -/
def Rot2.identity : Rot2 := ⟨Mat2.identity⟩

/-- `Rot3`: a three-dimensional rotation wrapping a single (orthogonal)
`Mat3`, from rotation.rs. -/
@[ext]
structure Rot3 where
  mat : Mat3

/-- `Rot3::as_mat3` from rotation.rs. -/
def Rot3.as_mat3 (r : Rot3) : Mat3 := r.mat

/-- `ToRot3 for Rot3::to_rot3` from rotation.rs (a clone). -/
def Rot3.to_rot3 (r : Rot3) : Rot3 := r

/-- `ToMat3 for Rot3::to_mat3` from rotation.rs (a clone of the wrapped
matrix). -/
def Rot3.to_mat3 (r : Rot3) : Mat3 := r.mat

/-- `Rotation3 for Rot3::rotate_point3` from rotation.rs:
`fail!("Not yet implemented")`. -/
def Rot3.rotate_point3 (_r : Rot3) (_point : Point3) : Except String Point3 :=
  Except.error "Not yet implemented"

/-- `Rotation3 for Rot3::rotate_vec3` from rotation.rs: multiply the
wrapped matrix by the vector. -/
def Rot3.rotate_vec3 (r : Rot3) (vec : Vec3) : Vec3 :=
  ⟨r.mat.m00 * vec.x + r.mat.m01 * vec.y + r.mat.m02 * vec.z,
   r.mat.m10 * vec.x + r.mat.m11 * vec.y + r.mat.m12 * vec.z,
   r.mat.m20 * vec.x + r.mat.m21 * vec.y + r.mat.m22 * vec.z⟩

/-- `Rotation3 for Rot3::rotate_ray3` from rotation.rs:
`fail!("Not yet implemented")`. -/
def Rot3.rotate_ray3 (_r : Rot3) (_ray : Ray3) : Except String Ray3 :=
  Except.error "Not yet implemented"

/-- `Rotation3 for Rot3::concat` from rotation.rs: wrap
`self.mat.mul_m(&other.mat)`. -/
def Rot3.concat (r other : Rot3) : Rot3 :=
  ⟨r.mat.mul_m other.mat⟩

/-- `Rotation3 for Rot3::concat_self` from rotation.rs: in-place variant
via `mul_self_m`; the mutated value is returned. -/
def Rot3.concat_self (r other : Rot3) : Rot3 :=
  ⟨r.mat.mul_self_m other.mat⟩

/-- `Rotation3 for Rot3::invert` from rotation.rs: wrap
`self.mat.invert().unwrap()`; the fatal unwrap failure is modelled by
`none`. -/
def Rot3.invert (r : Rot3) : Option Rot3 :=
  (r.mat.invert).map fun m => ⟨m⟩

/-- `Rotation3 for Rot3::invert_self` from rotation.rs: in-place variant
via the matrix primitive's `invert_self`. -/
def Rot3.invert_self (r : Rot3) : Option Rot3 :=
  (r.mat.invert_self).map fun m => ⟨m⟩

/-- `ApproxEq for Rot3::approx_epsilon` from rotation.rs:
`fail!(~"Doesn't work!")`. -/
def Rot3.approx_epsilon : Except String ℚ :=
  Except.error "Doesn\x27t work!"

/-- `ApproxEq for Rot3::approx_eq` from rotation.rs: delegate to the
wrapped matrices. -/
def Rot3.approx_eq (r other : Rot3) : Bool :=
  r.mat.approx_eq other.mat

/-- `ApproxEq for Rot3::approx_eq_eps` from rotation.rs: delegate to the
wrapped matrices. -/
def Rot3.approx_eq_eps (r other : Rot3) (approx_epsilon : ℚ) : Bool :=
  r.mat.approx_eq_eps other.mat approx_epsilon

/-- Modelled from the spec: the identity 3D rotation (the spec's "identity
rotation"; among rotation.rs constructors it is e.g. `from_angle_x 0`). -/
def Rot3.identity : Rot3 := ⟨Mat3.identity⟩

/-- `ToRot3 for Quat::to_rot3` from rotation.rs: wrap `self.to_mat3()`. -/
def Quat.to_rot3 (q : Quat) : Rot3 :=
  ⟨q.to_mat3⟩

/-- `ToQuat for Quat::to_quat` from rotation.rs (a clone). -/
def Quat.to_quat (q : Quat) : Quat := q

/-- `Rotation3 for Quat::rotate_point3` from rotation.rs:
`fail!("Not yet implemented")`. -/
def Quat.rotate_point3 (_q : Quat) (_point : Point3) : Except String Point3 :=
  Except.error "Not yet implemented"

/-- `Rotation3 for Quat::rotate_ray3` from rotation.rs:
`fail!("Not yet implemented")`. -/
def Quat.rotate_ray3 (_q : Quat) (_ray : Ray3) : Except String Ray3 :=
  Except.error "Not yet implemented"

/-- `Rotation3 for Quat::concat` from rotation.rs: `self.mul_q(other)`. -/
def Quat.concat (q other : Quat) : Quat :=
  q.mul_q other

/-- `Rotation3 for Quat::concat_self` from rotation.rs: in-place variant
via `mul_self_q`; the mutated value is returned. -/
def Quat.concat_self (q other : Quat) : Quat :=
  q.mul_self_q other

/-- `Rotation3 for Quat::invert` from rotation.rs:
`self.conjugate().div_s(self.magnitude2())`. -/
def Quat.invert (q : Quat) : Quat :=
  (q.conjugate).div_s q.magnitude2

/-- `Rotation3 for Quat::invert_self` from rotation.rs:
`*self = self.invert()`. -/
def Quat.invert_self (q : Quat) : Quat :=
  q.invert

/-! ### Algebraic facts about the modelled 2×2 matrix primitive -/

theorem mat2_mul_assoc (a b c : Mat2) :
    (a.mul_m b).mul_m c = a.mul_m (b.mul_m c) := by
  ext <;> simp [Mat2.mul_m] <;> ring

theorem mat2_one_mul (a : Mat2) : Mat2.identity.mul_m a = a := by
  ext <;> simp [Mat2.mul_m, Mat2.identity]

theorem mat2_mul_one (a : Mat2) : a.mul_m Mat2.identity = a := by
  ext <;> simp [Mat2.mul_m, Mat2.identity]

theorem mat2_transpose_mul (a b : Mat2) :
    (a.mul_m b).transpose = b.transpose.mul_m a.transpose := by
  ext <;> simp [Mat2.mul_m, Mat2.transpose] <;> ring

theorem mat2_transpose_transpose (a : Mat2) : a.transpose.transpose = a := by
  ext <;> simp [Mat2.transpose]

theorem mat2_det_mul (a b : Mat2) :
    (a.mul_m b).determinant = a.determinant * b.determinant := by
  simp [Mat2.mul_m, Mat2.determinant]; ring

theorem mat2_det_transpose (a : Mat2) :
    a.transpose.determinant = a.determinant := by
  simp [Mat2.transpose, Mat2.determinant]; ring

theorem mat2_orth_det_sq (a : Mat2) (h : a.orthogonal) :
    a.determinant * a.determinant = 1 := by
  have h' := congrArg Mat2.determinant h
  rw [mat2_det_mul, mat2_det_transpose] at h'
  simpa [Mat2.identity, Mat2.determinant] using h'

theorem mat2_orth_det_ne_zero (a : Mat2) (h : a.orthogonal) :
    a.determinant ≠ 0 := by
  intro h0
  have := mat2_orth_det_sq a h
  rw [h0] at this
  norm_num at this

theorem mat2_invert_facts (a : Mat2) (h : a.determinant ≠ 0) :
    ∃ n, a.invert = some n ∧ a.mul_m n = Mat2.identity ∧
      n.mul_m a = Mat2.identity := by
  refine ⟨⟨a.m11 / a.determinant, -a.m01 / a.determinant,
           -a.m10 / a.determinant, a.m00 / a.determinant⟩,
    by simp [Mat2.invert, h], ?_, ?_⟩ <;>
    ext <;>
    (simp [Mat2.mul_m, Mat2.identity]
     field_simp
     try simp only [Mat2.determinant]
     try ring)

theorem mat2_orth_invert (a : Mat2) (h : a.orthogonal) :
    a.invert = some a.transpose ∧ a.mul_m a.transpose = Mat2.identity := by
  obtain ⟨n, hs, hmn, hnm⟩ := mat2_invert_facts a (mat2_orth_det_ne_zero a h)
  have ht : a.transpose = n := by
    calc a.transpose = a.transpose.mul_m Mat2.identity := (mat2_mul_one _).symm
    _ = a.transpose.mul_m (a.mul_m n) := by rw [hmn]
    _ = (a.transpose.mul_m a).mul_m n := (mat2_mul_assoc _ _ _).symm
    _ = Mat2.identity.mul_m n := by rw [h]
    _ = n := mat2_one_mul n
  exact ⟨by rw [hs, ht], by rw [ht, hmn]⟩

theorem mat2_orth_transpose (a : Mat2) (h : a.orthogonal) :
    a.transpose.orthogonal := by
  unfold Mat2.orthogonal
  rw [mat2_transpose_transpose]
  exact (mat2_orth_invert a h).2

theorem mat2_orth_mul (a b : Mat2) (ha : a.orthogonal) (hb : b.orthogonal) :
    (a.mul_m b).orthogonal := by
  unfold Mat2.orthogonal at *
  calc (a.mul_m b).transpose.mul_m (a.mul_m b)
      = (b.transpose.mul_m a.transpose).mul_m (a.mul_m b) := by
        rw [mat2_transpose_mul]
    _ = b.transpose.mul_m (a.transpose.mul_m (a.mul_m b)) := mat2_mul_assoc _ _ _
    _ = b.transpose.mul_m ((a.transpose.mul_m a).mul_m b) := by
        rw [mat2_mul_assoc]
    _ = b.transpose.mul_m (Mat2.identity.mul_m b) := by rw [ha]
    _ = b.transpose.mul_m b := by rw [mat2_one_mul]
    _ = Mat2.identity := hb

theorem mat2_orth_identity : Mat2.identity.orthogonal := by
  simp [Mat2.orthogonal, Mat2.transpose, Mat2.mul_m, Mat2.identity]

theorem mat2_approx_eq_refl (m : Mat2) : Mat2.approx_eq m m = true := by
  simp [Mat2.approx_eq, Mat2.approx_eq_eps, scalarApproxEpsilon]

/-! ### Algebraic facts about the modelled 3×3 matrix primitive -/

theorem mat3_mul_assoc (a b c : Mat3) :
    (a.mul_m b).mul_m c = a.mul_m (b.mul_m c) := by
  ext <;> simp [Mat3.mul_m] <;> ring

theorem mat3_one_mul (a : Mat3) : Mat3.identity.mul_m a = a := by
  ext <;> simp [Mat3.mul_m, Mat3.identity]

theorem mat3_mul_one (a : Mat3) : a.mul_m Mat3.identity = a := by
  ext <;> simp [Mat3.mul_m, Mat3.identity]

theorem mat3_transpose_mul (a b : Mat3) :
    (a.mul_m b).transpose = b.transpose.mul_m a.transpose := by
  ext <;> simp [Mat3.mul_m, Mat3.transpose] <;> ring

theorem mat3_transpose_transpose (a : Mat3) : a.transpose.transpose = a := by
  ext <;> simp [Mat3.transpose]

theorem mat3_det_mul (a b : Mat3) :
    (a.mul_m b).determinant = a.determinant * b.determinant := by
  simp [Mat3.mul_m, Mat3.determinant]; ring

theorem mat3_det_transpose (a : Mat3) :
    a.transpose.determinant = a.determinant := by
  simp [Mat3.transpose, Mat3.determinant]; ring

theorem mat3_orth_det_sq (a : Mat3) (h : a.orthogonal) :
    a.determinant * a.determinant = 1 := by
  have h' := congrArg Mat3.determinant h
  rw [mat3_det_mul, mat3_det_transpose] at h'
  simpa [Mat3.identity, Mat3.determinant] using h'

theorem mat3_orth_det_ne_zero (a : Mat3) (h : a.orthogonal) :
    a.determinant ≠ 0 := by
  intro h0
  have := mat3_orth_det_sq a h
  rw [h0] at this
  norm_num at this

theorem mat3_invert_facts (a : Mat3) (h : a.determinant ≠ 0) :
    ∃ n, a.invert = some n ∧ a.mul_m n = Mat3.identity ∧
      n.mul_m a = Mat3.identity := by
  refine ⟨⟨(a.m11 * a.m22 - a.m12 * a.m21) / a.determinant,
           (a.m02 * a.m21 - a.m01 * a.m22) / a.determinant,
           (a.m01 * a.m12 - a.m02 * a.m11) / a.determinant,
           (a.m12 * a.m20 - a.m10 * a.m22) / a.determinant,
           (a.m00 * a.m22 - a.m02 * a.m20) / a.determinant,
           (a.m02 * a.m10 - a.m00 * a.m12) / a.determinant,
           (a.m10 * a.m21 - a.m11 * a.m20) / a.determinant,
           (a.m01 * a.m20 - a.m00 * a.m21) / a.determinant,
           (a.m00 * a.m11 - a.m01 * a.m10) / a.determinant⟩,
    by simp [Mat3.invert, h], ?_, ?_⟩ <;>
    ext <;>
    (simp [Mat3.mul_m, Mat3.identity]
     field_simp
     try simp only [Mat3.determinant]
     try ring)

theorem mat3_orth_invert (a : Mat3) (h : a.orthogonal) :
    a.invert = some a.transpose ∧ a.mul_m a.transpose = Mat3.identity := by
  obtain ⟨n, hs, hmn, hnm⟩ := mat3_invert_facts a (mat3_orth_det_ne_zero a h)
  have ht : a.transpose = n := by
    calc a.transpose = a.transpose.mul_m Mat3.identity := (mat3_mul_one _).symm
    _ = a.transpose.mul_m (a.mul_m n) := by rw [hmn]
    _ = (a.transpose.mul_m a).mul_m n := (mat3_mul_assoc _ _ _).symm
    _ = Mat3.identity.mul_m n := by rw [h]
    _ = n := mat3_one_mul n
  exact ⟨by rw [hs, ht], by rw [ht, hmn]⟩

theorem mat3_orth_transpose (a : Mat3) (h : a.orthogonal) :
    a.transpose.orthogonal := by
  unfold Mat3.orthogonal
  rw [mat3_transpose_transpose]
  exact (mat3_orth_invert a h).2

theorem mat3_orth_mul (a b : Mat3) (ha : a.orthogonal) (hb : b.orthogonal) :
    (a.mul_m b).orthogonal := by
  unfold Mat3.orthogonal at *
  calc (a.mul_m b).transpose.mul_m (a.mul_m b)
      = (b.transpose.mul_m a.transpose).mul_m (a.mul_m b) := by
        rw [mat3_transpose_mul]
    _ = b.transpose.mul_m (a.transpose.mul_m (a.mul_m b)) := mat3_mul_assoc _ _ _
    _ = b.transpose.mul_m ((a.transpose.mul_m a).mul_m b) := by
        rw [mat3_mul_assoc]
    _ = b.transpose.mul_m (Mat3.identity.mul_m b) := by rw [ha]
    _ = b.transpose.mul_m b := by rw [mat3_one_mul]
    _ = Mat3.identity := hb

theorem mat3_orth_identity : Mat3.identity.orthogonal := by
  simp [Mat3.orthogonal, Mat3.transpose, Mat3.mul_m, Mat3.identity]

theorem mat3_approx_eq_refl (m : Mat3) : Mat3.approx_eq m m = true := by
  simp [Mat3.approx_eq, Mat3.approx_eq_eps, scalarApproxEpsilon]

/-! ### Algebraic facts about the modelled quaternion primitive -/

theorem quat_magnitude2_mul (a b : Quat) :
    (a.mul_q b).magnitude2 = a.magnitude2 * b.magnitude2 := by
  simp [Quat.mul_q, Quat.magnitude2]; ring

theorem quat_homogMat_mul (a b : Quat) :
    (a.mul_q b).homogMat = (a.homogMat).mul_m b.homogMat := by
  ext <;> simp [Quat.mul_q, Quat.homogMat, Mat3.mul_m] <;> ring

theorem quat_to_mat3_eq_homog (q : Quat) (h : q.magnitude2 = 1) :
    q.to_mat3 = q.homogMat := by
  simp only [Quat.magnitude2] at h
  ext <;> simp [Quat.to_mat3, Quat.homogMat] <;> linear_combination -h

theorem quat_to_mat3_mul (a b : Quat) (ha : a.magnitude2 = 1)
    (hb : b.magnitude2 = 1) :
    (a.mul_q b).to_mat3 = (a.to_mat3).mul_m b.to_mat3 := by
  have hab : (a.mul_q b).magnitude2 = 1 := by
    rw [quat_magnitude2_mul, ha, hb, one_mul]
  rw [quat_to_mat3_eq_homog _ hab, quat_to_mat3_eq_homog _ ha,
    quat_to_mat3_eq_homog _ hb, quat_homogMat_mul]

/-! ### Claims -/

/-- Claim C1: for every representation (`Rot2`, `Rot3` and the quaternion
adapter `Quat`) and for every input point or ray, `rotate_point2` /
`rotate_point3` and `rotate_ray2` / `rotate_ray3` signal the unconditional
fatal "Not yet implemented" failure and never return a value. -/
theorem rotate_point_and_ray_always_fail (r2 : Rot2) (r3 : Rot3) (q : Quat)
    (p2 : Point2) (p3 : Point3) (ray2 : Ray2) (ray3 : Ray3) :
    r2.rotate_point2 p2 = Except.error "Not yet implemented" ∧
    r2.rotate_ray2 ray2 = Except.error "Not yet implemented" ∧
    r3.rotate_point3 p3 = Except.error "Not yet implemented" ∧
    r3.rotate_ray3 ray3 = Except.error "Not yet implemented" ∧
    q.rotate_point3 p3 = Except.error "Not yet implemented" ∧
    q.rotate_ray3 ray3 = Except.error "Not yet implemented" ∧
    (∀ out : Point2, r2.rotate_point2 p2 ≠ Except.ok out) ∧
    (∀ out : Ray2, r2.rotate_ray2 ray2 ≠ Except.ok out) ∧
    (∀ out : Point3, r3.rotate_point3 p3 ≠ Except.ok out) ∧
    (∀ out : Ray3, r3.rotate_ray3 ray3 ≠ Except.ok out) ∧
    (∀ out : Point3, q.rotate_point3 p3 ≠ Except.ok out) ∧
    (∀ out : Ray3, q.rotate_ray3 ray3 ≠ Except.ok out) :=
  ⟨rfl, rfl, rfl, rfl, rfl, rfl,
   fun _ h => Except.noConfusion h, fun _ h => Except.noConfusion h,
   fun _ h => Except.noConfusion h, fun _ h => Except.noConfusion h,
   fun _ h => Except.noConfusion h, fun _ h => Except.noConfusion h⟩

/-- Claim C2: for every `Rot2`/`Rot3` whose wrapped matrix is orthogonal,
the matrix primitive's inversion inside `invert` succeeds, so the unwrap
failure branch of `invert` and the corresponding failure of `invert_self`
are unreachable. -/
theorem orth_invert_never_fails (r2 : Rot2) (r3 : Rot3)
    (h2 : r2.mat.orthogonal) (h3 : r3.mat.orthogonal) :
    r2.invert.isSome = true ∧ r2.invert_self.isSome = true ∧
    r3.invert.isSome = true ∧ r3.invert_self.isSome = true := by
  have i2 := (mat2_orth_invert r2.mat h2).1
  have i3 := (mat3_orth_invert r3.mat h3).1
  have e2 : r2.mat.invert_self = r2.mat.invert := rfl
  have e3 : r3.mat.invert_self = r3.mat.invert := rfl
  refine ⟨?_, ?_, ?_, ?_⟩ <;>
    simp [Rot2.invert, Rot2.invert_self, Rot3.invert, Rot3.invert_self,
      e2, e3, i2, i3]

/-- Witness for C2 at the identity rotations. -/
theorem orth_invert_never_fails_witness :
    Rot2.identity.mat.orthogonal ∧ Rot3.identity.mat.orthogonal ∧
    (Rot2.identity.invert.isSome = true ∧
     Rot2.identity.invert_self.isSome = true ∧
     Rot3.identity.invert.isSome = true ∧
     Rot3.identity.invert_self.isSome = true) :=
  ⟨by simp [Rot2.identity, Mat2.orthogonal, Mat2.transpose, Mat2.mul_m,
      Mat2.identity],
   by simp [Rot3.identity, Mat3.orthogonal, Mat3.transpose, Mat3.mul_m,
      Mat3.identity],
   orth_invert_never_fails Rot2.identity Rot3.identity
     (by simp [Rot2.identity, Mat2.orthogonal, Mat2.transpose, Mat2.mul_m,
        Mat2.identity])
     (by simp [Rot3.identity, Mat3.orthogonal, Mat3.transpose, Mat3.mul_m,
        Mat3.identity])⟩

/-- Claim C3: for all `Rot2` values (and likewise `Rot3`), `concat` wraps
exactly the matrix product of self's matrix (left) by other's matrix
(right), spelled out entrywise. -/
theorem concat_wraps_left_right_matrix_product (r1 r2 : Rot2) (s1 s2 : Rot3) :
    (r1.concat r2).mat = r1.mat.mul_m r2.mat ∧
    (r1.concat r2).mat.m00 =
      r1.mat.m00 * r2.mat.m00 + r1.mat.m01 * r2.mat.m10 ∧
    (r1.concat r2).mat.m01 =
      r1.mat.m00 * r2.mat.m01 + r1.mat.m01 * r2.mat.m11 ∧
    (r1.concat r2).mat.m10 =
      r1.mat.m10 * r2.mat.m00 + r1.mat.m11 * r2.mat.m10 ∧
    (r1.concat r2).mat.m11 =
      r1.mat.m10 * r2.mat.m01 + r1.mat.m11 * r2.mat.m11 ∧
    (s1.concat s2).mat = s1.mat.mul_m s2.mat ∧
    (s1.concat s2).mat.m00 =
      s1.mat.m00 * s2.mat.m00 + s1.mat.m01 * s2.mat.m10 +
      s1.mat.m02 * s2.mat.m20 ∧
    (s1.concat s2).mat.m01 =
      s1.mat.m00 * s2.mat.m01 + s1.mat.m01 * s2.mat.m11 +
      s1.mat.m02 * s2.mat.m21 ∧
    (s1.concat s2).mat.m02 =
      s1.mat.m00 * s2.mat.m02 + s1.mat.m01 * s2.mat.m12 +
      s1.mat.m02 * s2.mat.m22 ∧
    (s1.concat s2).mat.m10 =
      s1.mat.m10 * s2.mat.m00 + s1.mat.m11 * s2.mat.m10 +
      s1.mat.m12 * s2.mat.m20 ∧
    (s1.concat s2).mat.m11 =
      s1.mat.m10 * s2.mat.m01 + s1.mat.m11 * s2.mat.m11 +
      s1.mat.m12 * s2.mat.m21 ∧
    (s1.concat s2).mat.m12 =
      s1.mat.m10 * s2.mat.m02 + s1.mat.m11 * s2.mat.m12 +
      s1.mat.m12 * s2.mat.m22 ∧
    (s1.concat s2).mat.m20 =
      s1.mat.m20 * s2.mat.m00 + s1.mat.m21 * s2.mat.m10 +
      s1.mat.m22 * s2.mat.m20 ∧
    (s1.concat s2).mat.m21 =
      s1.mat.m20 * s2.mat.m01 + s1.mat.m21 * s2.mat.m11 +
      s1.mat.m22 * s2.mat.m21 ∧
    (s1.concat s2).mat.m22 =
      s1.mat.m20 * s2.mat.m02 + s1.mat.m21 * s2.mat.m12 +
      s1.mat.m22 * s2.mat.m22 :=
  ⟨rfl, rfl, rfl, rfl, rfl, rfl, rfl, rfl, rfl, rfl, rfl, rfl, rfl, rfl, rfl⟩

/-- Claim C4: the quaternion adapter's `invert` is the general quaternion
inverse (conjugate over squared magnitude): it equals the conjugate divided
componentwise by the squared magnitude, it is a two-sided inverse for the
Hamilton product whenever the squared magnitude is nonzero, and for a unit
quaternion it reduces to the conjugate. -/
theorem quat_invert_is_general_inverse (q : Quat) :
    q.invert = (q.conjugate).div_s q.magnitude2 ∧
    q.invert = ⟨q.s / q.magnitude2, (-q.x) / q.magnitude2,
                (-q.y) / q.magnitude2, (-q.z) / q.magnitude2⟩ ∧
    (q.magnitude2 ≠ 0 →
      q.mul_q q.invert = ⟨1, 0, 0, 0⟩ ∧ (q.invert).mul_q q = ⟨1, 0, 0, 0⟩) ∧
    (q.magnitude2 = 1 → q.invert = q.conjugate) := by
  refine ⟨rfl, rfl, fun h => ⟨?_, ?_⟩, fun h1 => ?_⟩
  · ext <;>
      (simp [Quat.mul_q, Quat.invert, Quat.conjugate, Quat.div_s]
       field_simp
       try simp only [Quat.magnitude2]
       try ring)
  · ext <;>
      (simp [Quat.mul_q, Quat.invert, Quat.conjugate, Quat.div_s]
       field_simp
       try simp only [Quat.magnitude2]
       try ring)
  · unfold Quat.invert
    rw [h1]
    ext <;> simp [Quat.div_s, Quat.conjugate]

/-- Witness for C4 at the unit quaternion 1. -/
theorem quat_invert_is_general_inverse_witness :
    (Quat.mk 1 0 0 0).magnitude2 ≠ 0 ∧ (Quat.mk 1 0 0 0).magnitude2 = 1 ∧
    (Quat.mk 1 0 0 0).mul_q (Quat.mk 1 0 0 0).invert = ⟨1, 0, 0, 0⟩ ∧
    (Quat.mk 1 0 0 0).invert = (Quat.mk 1 0 0 0).conjugate :=
  ⟨by simp [Quat.magnitude2], by simp [Quat.magnitude2],
   ((quat_invert_is_general_inverse (Quat.mk 1 0 0 0)).2.2.1
     (by simp [Quat.magnitude2])).1,
   (quat_invert_is_general_inverse (Quat.mk 1 0 0 0)).2.2.2
     (by simp [Quat.magnitude2])⟩

/-- Claim C5, counterexample: at the non-unit quaternion
`q = (s, x, y, z) = (0, 2, 0, 0)`, converting `q.concat q` to `Rot3` is NOT
approximately equal to the `concat` of the `Rot3` conversions (the former
wraps the identity matrix, the latter `diag(1, 49, 49)`), so the claim's
universal quantification over all quaternions fails. -/
theorem quat_concat_to_rot3_counterexample :
    Rot3.approx_eq (((Quat.mk 0 2 0 0).concat (Quat.mk 0 2 0 0)).to_rot3)
      (((Quat.mk 0 2 0 0).to_rot3).concat ((Quat.mk 0 2 0 0).to_rot3)) =
      false := by
  norm_num [Rot3.approx_eq, Mat3.approx_eq, Mat3.approx_eq_eps, Quat.concat,
    Quat.mul_q, Quat.to_rot3, Quat.to_mat3, Rot3.concat, Mat3.mul_m,
    scalarApproxEpsilon, decide_eq_false_iff_not]

/-- Claim C5 (amended: restricted to unit quaternions, the stated invariant
of the quaternion representation): the adapter's `concat` is the Hamilton
product in the same fixed order as the matrix representations, and for unit
quaternions `q1`, `q2` the `Rot3` conversion of `q1.concat q2` is
approximately equal (within the representation's tolerance — here exactly
equal) to the `concat` of the `Rot3` conversions of `q1` and `q2`. -/
theorem quat_concat_commutes_with_to_rot3 (q1 q2 : Quat)
    (h1 : q1.magnitude2 = 1) (h2 : q2.magnitude2 = 1) :
    q1.concat q2 = q1.mul_q q2 ∧
    Rot3.approx_eq ((q1.concat q2).to_rot3)
      ((q1.to_rot3).concat (q2.to_rot3)) = true := by
  refine ⟨rfl, ?_⟩
  have h : (q1.concat q2).to_rot3 = (q1.to_rot3).concat (q2.to_rot3) := by
    show Rot3.mk ((q1.mul_q q2).to_mat3) =
      Rot3.mk ((q1.to_mat3).mul_m q2.to_mat3)
    rw [quat_to_mat3_mul q1 q2 h1 h2]
  rw [h]
  exact mat3_approx_eq_refl _

/-- Witness for the amended C5 at the unit quaternion 1. -/
theorem quat_concat_commutes_with_to_rot3_witness :
    (Quat.mk 1 0 0 0).magnitude2 = 1 ∧
    Rot3.approx_eq (((Quat.mk 1 0 0 0).concat (Quat.mk 1 0 0 0)).to_rot3)
      (((Quat.mk 1 0 0 0).to_rot3).concat ((Quat.mk 1 0 0 0).to_rot3)) =
      true :=
  ⟨by simp [Quat.magnitude2],
   (quat_concat_commutes_with_to_rot3 (Quat.mk 1 0 0 0) (Quat.mk 1 0 0 0)
     (by simp [Quat.magnitude2]) (by simp [Quat.magnitude2])).2⟩

/-- Claim C6: for every `Rot2` and `Rot3` value with an orthogonal wrapped
matrix, `invert` succeeds and `r.concat (r.invert)` is approximately equal
to the identity rotation within the representation's tolerance. -/
theorem concat_invert_approx_eq_identity (r2 : Rot2) (r3 : Rot3)
    (h2 : r2.mat.orthogonal) (h3 : r3.mat.orthogonal) :
    ∃ i2 i3, r2.invert = some i2 ∧ r3.invert = some i3 ∧
      Rot2.approx_eq (r2.concat i2) Rot2.identity = true ∧
      Rot3.approx_eq (r3.concat i3) Rot3.identity = true := by
  obtain ⟨hi2, hm2⟩ := mat2_orth_invert r2.mat h2
  obtain ⟨hi3, hm3⟩ := mat3_orth_invert r3.mat h3
  refine ⟨⟨r2.mat.transpose⟩, ⟨r3.mat.transpose⟩, ?_, ?_, ?_, ?_⟩
  · simp [Rot2.invert, hi2]
  · simp [Rot3.invert, hi3]
  · have h : r2.concat ⟨r2.mat.transpose⟩ = Rot2.identity := by
      show Rot2.mk (r2.mat.mul_m r2.mat.transpose) = Rot2.mk Mat2.identity
      rw [hm2]
    rw [h]
    exact mat2_approx_eq_refl _
  · have h : r3.concat ⟨r3.mat.transpose⟩ = Rot3.identity := by
      show Rot3.mk (r3.mat.mul_m r3.mat.transpose) = Rot3.mk Mat3.identity
      rw [hm3]
    rw [h]
    exact mat3_approx_eq_refl _

/-- Witness for C6 at the identity rotations. -/
theorem concat_invert_approx_eq_identity_witness :
    Rot2.identity.mat.orthogonal ∧ Rot3.identity.mat.orthogonal ∧
    (∃ i2 i3, Rot2.identity.invert = some i2 ∧
      Rot3.identity.invert = some i3 ∧
      Rot2.approx_eq (Rot2.identity.concat i2) Rot2.identity = true ∧
      Rot3.approx_eq (Rot3.identity.concat i3) Rot3.identity = true) :=
  ⟨by simp [Rot2.identity, Mat2.orthogonal, Mat2.transpose, Mat2.mul_m,
      Mat2.identity],
   by simp [Rot3.identity, Mat3.orthogonal, Mat3.transpose, Mat3.mul_m,
      Mat3.identity],
   concat_invert_approx_eq_identity Rot2.identity Rot3.identity
     (by simp [Rot2.identity, Mat2.orthogonal, Mat2.transpose, Mat2.mul_m,
        Mat2.identity])
     (by simp [Rot3.identity, Mat3.orthogonal, Mat3.transpose, Mat3.mul_m,
        Mat3.identity])⟩

/-- Claim C7: orthogonality is an invariant of `Rot2`/`Rot3`: when the
operands' wrapped matrices are orthogonal, the matrix wrapped by the result
of `concat`, `concat_self`, `invert` and `invert_self` is again orthogonal
(for inversion, the result wraps the transpose, which is orthogonal). -/
theorem orthogonality_preserved_by_operations (a b : Rot2) (c d : Rot3)
    (ha : a.mat.orthogonal) (hb : b.mat.orthogonal)
    (hc : c.mat.orthogonal) (hd : d.mat.orthogonal) :
    (a.concat b).mat.orthogonal ∧ (a.concat_self b).mat.orthogonal ∧
    a.invert = some ⟨a.mat.transpose⟩ ∧
    a.invert_self = some ⟨a.mat.transpose⟩ ∧
    (a.mat.transpose).orthogonal ∧
    (c.concat d).mat.orthogonal ∧ (c.concat_self d).mat.orthogonal ∧
    c.invert = some ⟨c.mat.transpose⟩ ∧
    c.invert_self = some ⟨c.mat.transpose⟩ ∧
    (c.mat.transpose).orthogonal := by
  have i2 := (mat2_orth_invert a.mat ha).1
  have i3 := (mat3_orth_invert c.mat hc).1
  refine ⟨mat2_orth_mul _ _ ha hb, mat2_orth_mul _ _ ha hb, ?_, ?_,
    mat2_orth_transpose _ ha, mat3_orth_mul _ _ hc hd,
    mat3_orth_mul _ _ hc hd, ?_, ?_, mat3_orth_transpose _ hc⟩
  · simp [Rot2.invert, i2]
  · simp [Rot2.invert_self,
      show a.mat.invert_self = a.mat.invert from rfl, i2]
  · simp [Rot3.invert, i3]
  · simp [Rot3.invert_self,
      show c.mat.invert_self = c.mat.invert from rfl, i3]

/-- Witness for C7 at the identity rotations. -/
theorem orthogonality_preserved_by_operations_witness :
    Rot2.identity.mat.orthogonal ∧ Rot3.identity.mat.orthogonal ∧
    ((Rot2.identity.concat Rot2.identity).mat.orthogonal ∧
     (Rot2.identity.concat_self Rot2.identity).mat.orthogonal ∧
     Rot2.identity.invert = some ⟨Rot2.identity.mat.transpose⟩ ∧
     Rot2.identity.invert_self = some ⟨Rot2.identity.mat.transpose⟩ ∧
     (Rot2.identity.mat.transpose).orthogonal ∧
     (Rot3.identity.concat Rot3.identity).mat.orthogonal ∧
     (Rot3.identity.concat_self Rot3.identity).mat.orthogonal ∧
     Rot3.identity.invert = some ⟨Rot3.identity.mat.transpose⟩ ∧
     Rot3.identity.invert_self = some ⟨Rot3.identity.mat.transpose⟩ ∧
     (Rot3.identity.mat.transpose).orthogonal) :=
  ⟨by simp [Rot2.identity, Mat2.orthogonal, Mat2.transpose, Mat2.mul_m,
      Mat2.identity],
   by simp [Rot3.identity, Mat3.orthogonal, Mat3.transpose, Mat3.mul_m,
      Mat3.identity],
   orthogonality_preserved_by_operations Rot2.identity Rot2.identity
     Rot3.identity Rot3.identity
     (by simp [Rot2.identity, Mat2.orthogonal, Mat2.transpose, Mat2.mul_m,
        Mat2.identity])
     (by simp [Rot2.identity, Mat2.orthogonal, Mat2.transpose, Mat2.mul_m,
        Mat2.identity])
     (by simp [Rot3.identity, Mat3.orthogonal, Mat3.transpose, Mat3.mul_m,
        Mat3.identity])
     (by simp [Rot3.identity, Mat3.orthogonal, Mat3.transpose, Mat3.mul_m,
        Mat3.identity])⟩

/-- Claim C8: for every representation (`Rot2`, `Rot3`, `Quat`), the
in-place inversion `invert_self` leaves the value equal to the result of
the value-returning `invert` (for the matrix wrappers, including agreement
of the failure behaviour). -/
theorem invert_self_agrees_with_invert (r2 : Rot2) (r3 : Rot3) (q : Quat) :
    r2.invert_self = r2.invert ∧ r3.invert_self = r3.invert ∧
    q.invert_self = q.invert :=
  ⟨rfl, rfl, rfl⟩

/-- Claim C9: the `approx_epsilon` accessor of both `Rot2` and `Rot3`
signals the unconditional fatal failure on every call and never returns a
tolerance value. -/
theorem approx_epsilon_always_fails :
    Rot2.approx_epsilon = Except.error "Doesn\x27t work!" ∧
    Rot3.approx_epsilon = Except.error "Doesn\x27t work!" ∧
    (∀ t : ℚ, Rot2.approx_epsilon ≠ Except.ok t) ∧
    (∀ t : ℚ, Rot3.approx_epsilon ≠ Except.ok t) :=
  ⟨rfl, rfl, fun _ h => Except.noConfusion h, fun _ h => Except.noConfusion h⟩

/-- Claim C10: `approx_eq` and `approx_eq_eps` on `Rot2`/`Rot3` are total
(they never consult the failing `approx_epsilon` accessor; in this model
they are plain `Bool`-valued functions) and return `true` exactly when the
corresponding comparison of the two wrapped matrices does. -/
theorem approx_eq_matches_matrix_comparison (a b : Rot2) (c d : Rot3)
    (eps : ℚ) :
    Rot2.approx_eq a b = Mat2.approx_eq a.mat b.mat ∧
    Rot2.approx_eq_eps a b eps = Mat2.approx_eq_eps a.mat b.mat eps ∧
    (Rot2.approx_eq_eps a b eps = true ↔
      (|a.mat.m00 - b.mat.m00| < eps ∧ |a.mat.m01 - b.mat.m01| < eps ∧
       |a.mat.m10 - b.mat.m10| < eps ∧ |a.mat.m11 - b.mat.m11| < eps)) ∧
    (Rot2.approx_eq a b = true ↔
      Rot2.approx_eq_eps a b scalarApproxEpsilon = true) ∧
    Rot3.approx_eq c d = Mat3.approx_eq c.mat d.mat ∧
    Rot3.approx_eq_eps c d eps = Mat3.approx_eq_eps c.mat d.mat eps ∧
    (Rot3.approx_eq_eps c d eps = true ↔
      (|c.mat.m00 - d.mat.m00| < eps ∧ |c.mat.m01 - d.mat.m01| < eps ∧
       |c.mat.m02 - d.mat.m02| < eps ∧ |c.mat.m10 - d.mat.m10| < eps ∧
       |c.mat.m11 - d.mat.m11| < eps ∧ |c.mat.m12 - d.mat.m12| < eps ∧
       |c.mat.m20 - d.mat.m20| < eps ∧ |c.mat.m21 - d.mat.m21| < eps ∧
       |c.mat.m22 - d.mat.m22| < eps)) ∧
    (Rot3.approx_eq c d = true ↔
      Rot3.approx_eq_eps c d scalarApproxEpsilon = true) := by
  refine ⟨rfl, rfl, ?_, Iff.rfl, rfl, rfl, ?_, Iff.rfl⟩ <;>
    simp [Rot2.approx_eq_eps, Mat2.approx_eq_eps, Rot3.approx_eq_eps,
      Mat3.approx_eq_eps]
